import Mathlib

/-!
Verification of the download queue / worker pool of `tidal-mdl`
(`src/downloader.py`), as a shallow embedding in Lean 4.

The embedding follows the source code: `DownloadQueue.add_task`,
`DownloadQueue._apply_rate_limit`, `DownloadQueue._worker`,
`DownloadQueue._download_track` (stream-quality fallback, temp-file
discipline, remux fallback, metadata embedding) and the path helpers
`safe_add_extension` and the `.downloading` temp-file convention.
External effects (file system, network, ffmpeg, mutagen) are modelled by
explicit environments and event traces.
-/

namespace TidalMdl

/-- `DownloadStatus` enum from `downloader.py`. -/
inductive DownloadStatus
  | queued
  | downloading
  | completed
  | failed
  | skipped
  | cancelled
  deriving DecidableEq, Repr

/-- The four `tidalapi.Quality` values used by the quality ladder. -/
inductive Quality
  | hiResLossless
  | highLossless
  | low320k
  | low96k
  deriving DecidableEq, Repr, BEq

/-- `quality_order` from `_download_track` (lines 373-378): the fixed
descending ladder. -/
def qualityOrder : List Quality :=
  [.hiResLossless, .highLossless, .low320k, .low96k]

/-- `start_index` computation (lines 381-383): index of the configured
quality in the ladder, `0` if it is not in the ladder. -/
def startIndex (preferred : Quality) : Nat :=
  if qualityOrder.contains preferred then qualityOrder.indexOf preferred else 0

/-- Stream descriptor: the fields of `stream` / `manifest` that
`_download_track` reads (`codecs`, `file_extension`, `get_urls()`). -/
structure StreamDesc where
  codec : String
  fileExt : String
  urls : List String
  deriving DecidableEq, Repr

/-- Outcome of one `track.get_stream()` call at a given quality:
a truthy stream, a falsy result without exception, or a raised
exception carrying `str(e)`. -/
inductive StreamAttempt
  | ok (d : StreamDesc)
  | noStream
  | exn (msg : String)
  deriving DecidableEq, Repr

def isOkAttempt : StreamAttempt → Bool
  | .ok _ => true
  | _ => false

/-- Events on the shared session during stream negotiation: the
`session_lock` acquisition, the `session.config.quality` mutation, the
`track.get_stream()` call, and the lock release. -/
inductive SessionEvent
  | acquire
  | setQuality (q : Quality)
  | fetchStream (q : Quality)
  | release
  deriving DecidableEq, Repr

/-- The `with self.session_lock:` block of one loop iteration
(lines 395-397): quality mutation and stream fetch under the lock. -/
def sessionEvBlock (q : Quality) : List SessionEvent :=
  [.acquire, .setQuality q, .fetchStream q, .release]

/-- Result of the quality-fallback loop: the stream found (if any), the
last exception message (`stream_error`), the tiers attempted in order,
and the session-lock event trace. -/
structure ResolveResult where
  stream : Option StreamDesc
  lastErr : Option String
  attempted : List Quality
  events : List SessionEvent
  deriving Repr

/-- The quality-fallback loop body of `_download_track` (lines 389-405),
run over a remaining list of tiers with the accumulated `stream_error`.
On `.ok` the loop breaks; on a falsy stream it continues with
`stream_error` unchanged; on an exception it records the message and
continues. -/
def resolveStreamAux (oracle : Quality → StreamAttempt) :
    List Quality → Option String → ResolveResult
  | [], lastErr => ⟨none, lastErr, [], []⟩
  | q :: qs, lastErr =>
    match oracle q with
    | .ok d => ⟨some d, lastErr, [q], sessionEvBlock q⟩
    | .noStream =>
      let r := resolveStreamAux oracle qs lastErr
      ⟨r.stream, r.lastErr, q :: r.attempted, sessionEvBlock q ++ r.events⟩
    | .exn msg =>
      let r := resolveStreamAux oracle qs (some msg)
      ⟨r.stream, r.lastErr, q :: r.attempted, sessionEvBlock q ++ r.events⟩

/-- Stream negotiation (lines 369-405): try the ladder from the
configured start index with no prior error. -/
def resolveStream (oracle : Quality → StreamAttempt) (preferred : Quality) :
    ResolveResult :=
  resolveStreamAux oracle (qualityOrder.drop (startIndex preferred)) none

/-- Structural substring test on character lists (Python `in` on str). -/
def containsSub (pat : List Char) : List Char → Bool
  | [] => pat.isEmpty
  | c :: cs => pat.isPrefixOf (c :: cs) || containsSub pat cs

/-- `"401" in str(e) or "403" in str(e)` (line 413). -/
def hasAuthCode (e : String) : Bool :=
  containsSub "401".toList e.toList || containsSub "403".toList e.toList

/-- The error message chosen when no stream was obtained
(lines 411-421): auth message on 401/403, generic stream error on any
other recorded exception, all-qualities message when no exception was
recorded at all. -/
def streamFailureError (lastErr : Option String) : String :=
  match lastErr with
  | some e =>
    if hasAuthCode e then "Session expired or invalid rights."
    else "Stream error: " ++ e
  | none => "Could not get stream URL (all qualities failed)"

/-- `TEMP_DOWNLOAD_EXTENSION` (line 139). -/
def tempDownloadExtension : String := ".downloading"

/-- `safe_add_extension` (lines 101-117): prefix the extension with a
dot when missing, then append to the path string. -/
def safeAddExtension (p ext : String) : String :=
  if ext.toList.head? = some '.' then p ++ ext else p ++ "." ++ ext

/-- The temporary sibling of a resolved final path
(`str(final_path) + TEMP_DOWNLOAD_EXTENSION`, lines 453/458/465). -/
def tempPath (finalPath : String) : String :=
  finalPath ++ tempDownloadExtension

/-- Remove every occurrence of `".downloading"` from a character list
(Python `str.replace(TEMP_DOWNLOAD_EXTENSION, "")`, line 556), with
explicit fuel so the definition is structural. -/
def stripMarkerAux : Nat → List Char → List Char
  | 0, _ => []
  | _ + 1, [] => []
  | fuel + 1, c :: cs =>
    if (".downloading".toList).isPrefixOf (c :: cs) then
      stripMarkerAux fuel ((c :: cs).drop (".downloading".toList.length))
    else
      c :: stripMarkerAux fuel cs

def stripMarker (cs : List Char) : List Char :=
  stripMarkerAux cs.length cs

/-- Python `s.rsplit(".", 1)[0]`: everything before the last dot, or the
whole string when there is no dot (line 556). -/
def beforeLastDot (cs : List Char) : List Char :=
  let r := cs.reverse.dropWhile (fun c => c != '.')
  if r.isEmpty then cs else r.tail.reverse

/-- Line 556: `Path(str(download_path).replace(TEMP_DOWNLOAD_EXTENSION,
"").rsplit(".", 1)[0] + ".m4a")` — the fallback name used when the
remux fails. -/
def m4aFallbackPath (downloadPath : String) : String :=
  (⟨beforeLastDot (stripMarker downloadPath.toList)⟩ : String) ++ ".m4a"

/-- File-system and external-process events performed by
`_download_track`. `writeTemp` is the fetch loop writing the (possibly
partial) temp file; `renameFile` is `shutil.move`; `remuxWrite` is the
ffmpeg invocation writing its output path directly; `tagFile` is the
metadata-embedding attempt with its raised-exception flag. -/
inductive FsEvent
  | mkdirParent (p : String)
  | writeTemp (p : String)
  | deleteFile (p : String)
  | renameFile (src dst : String)
  | remuxWrite (src dst : String)
  | tagFile (p : String) (raised : Bool)
  deriving DecidableEq, Repr

/-- Outcome of the byte-fetch loop (lines 488-524): completed, observed
the stop signal (`was_cancelled`), or raised an I/O error after having
written the temp file or not. -/
inductive FetchOutcome
  | ok
  | cancelled
  | ioError (wrote : Bool) (msg : String)
  deriving DecidableEq, Repr

/-- Environment for one `_download_track` run: configuration flags,
file-system probes, the per-quality stream oracle, and outcomes of the
fetch / remux / rename / tagging effects. -/
structure TrackEnv where
  skipExisting : Bool
  outputPathExists : Bool
  oracle : Quality → StreamAttempt
  preferred : Quality
  ffmpegAvailable : Bool
  finalPathExists : Bool
  fetch : FetchOutcome
  remuxOk : Bool
  moveFails : Option String
  tagRaises : Bool

/-- Result of one `_download_track` run: the returned boolean, the task
status and error as left on the task, the task's `output_path` after
the run, the resolved final path (once the extension is known), and the
file-system event trace. -/
structure TrackResult where
  success : Bool
  status : DownloadStatus
  error : Option String
  outputPath : String
  resolvedFinal : Option String
  events : List FsEvent
  deriving DecidableEq, Repr

/-- Extension resolution (lines 445-465): the final path and whether a
FLAC-in-MP4 remux is needed. -/
def resolveFinalPath (outputPath : String) (desc : StreamDesc)
    (ffmpeg : Bool) : String × Bool :=
  if desc.codec = "FLAC" ∧ desc.fileExt = ".m4a" then
    if ffmpeg then (safeAddExtension outputPath ".flac", true)
    else (safeAddExtension outputPath ".m4a", false)
  else
    (safeAddExtension outputPath (if desc.fileExt = "" then ".m4a" else desc.fileExt), false)

/-- `DownloadQueue._download_track` (lines 356-588), with the task
entering with status `DOWNLOADING` and `output_path` not yet carrying an
extension. Mirrors, in order: the skip-existing check, the
quality-fallback loop, the error taxonomy when no stream was obtained,
directory creation, extension resolution and temp-path formation, the
second skip-existing check, the empty-URL check, the fetch loop with
cancellation and I/O-error handling, the remux step with its keep-as-M4A
fallback, the temp-to-final rename with its locally caught failure, and
the swallowed metadata-embedding attempt. -/
def downloadTrack (env : TrackEnv) (outputPath : String) : TrackResult :=
  if env.skipExisting && env.outputPathExists then
    { success := true, status := .skipped, error := none,
      outputPath := outputPath, resolvedFinal := none, events := [] }
  else
    match (resolveStream env.oracle env.preferred).stream with
    | none =>
      { success := false, status := .downloading,
        error := some (streamFailureError (resolveStream env.oracle env.preferred).lastErr),
        outputPath := outputPath, resolvedFinal := none, events := [] }
    | some desc =>
      let mk := FsEvent.mkdirParent outputPath
      let fp := (resolveFinalPath outputPath desc env.ffmpegAvailable).1
      let needsRemux := (resolveFinalPath outputPath desc env.ffmpegAvailable).2
      let dp := tempPath fp
      if env.skipExisting && env.finalPathExists then
        { success := true, status := .skipped, error := none,
          outputPath := fp, resolvedFinal := some fp, events := [mk] }
      else if desc.urls.isEmpty then
        { success := false, status := .downloading,
          error := some "No download URLs available",
          outputPath := fp, resolvedFinal := some fp, events := [mk] }
      else
        match env.fetch with
        | .cancelled =>
          { success := false, status := .cancelled,
            error := some "Download cancelled by user",
            outputPath := fp, resolvedFinal := some fp,
            events := [mk, .writeTemp dp, .deleteFile dp] }
        | .ioError wrote msg =>
          { success := false, status := .downloading, error := some msg,
            outputPath := fp, resolvedFinal := some fp,
            events := [mk] ++ (if wrote then [FsEvent.writeTemp dp, FsEvent.deleteFile dp] else []) }
        | .ok =>
          if needsRemux then
            if env.remuxOk then
              { success := true, status := .downloading, error := none,
                outputPath := fp, resolvedFinal := some fp,
                events := [mk, .writeTemp dp, .remuxWrite dp fp,
                           .deleteFile dp, .tagFile fp env.tagRaises] }
            else
              match env.moveFails with
              | some msg =>
                { success := false, status := .downloading, error := some msg,
                  outputPath := fp, resolvedFinal := some fp,
                  events := [mk, .writeTemp dp, .remuxWrite dp fp, .deleteFile dp] }
              | none =>
                let m4a := m4aFallbackPath dp
                { success := true, status := .downloading, error := none,
                  outputPath := m4a, resolvedFinal := some fp,
                  events := [mk, .writeTemp dp, .remuxWrite dp fp,
                             .renameFile dp m4a, .tagFile m4a env.tagRaises] }
          else
            match env.moveFails with
            | some msg =>
              { success := false, status := .downloading,
                error := some ("Failed to finalize download: " ++ msg),
                outputPath := fp, resolvedFinal := some fp,
                events := [mk, .writeTemp dp] }
            | none =>
              { success := true, status := .downloading, error := none,
                outputPath := fp, resolvedFinal := some fp,
                events := [mk, .writeTemp dp, .renameFile dp fp,
                           .tagFile fp env.tagRaises] }

/-- What `_worker` does with the task after `_download_item` returns
(lines 316-328): on success, preserve `SKIPPED`, otherwise mark
`COMPLETED` and append to `completed`; on failure, mark `FAILED` and
append to `failed`. -/
structure WorkerOutcome where
  finalStatus : DownloadStatus
  toCompleted : Bool
  toFailed : Bool
  deriving DecidableEq, Repr

def workerFinish (r : TrackResult) : WorkerOutcome :=
  if r.success then
    { finalStatus := if r.status = .skipped then .skipped else .completed,
      toCompleted := true, toFailed := false }
  else
    { finalStatus := .failed, toCompleted := false, toFailed := true }

/-- The task fields `add_task` reads. -/
structure QTask where
  id : String
  outputPath : String
  status : DownloadStatus
  deriving DecidableEq, Repr

/-- The three collections of `DownloadQueue`. -/
structure QueueState where
  queue : List QTask
  completed : List QTask
  failed : List QTask
  deriving DecidableEq, Repr

/-- `DownloadQueue.add_task` (lines 215-235). `fileExists` models
`Path.exists()`. The dedup set is built from queue entries whose status
is `QUEUED`; the completed list is scanned for the first entry with a
matching id, which either blocks the add (file still on disk) or is
evicted (file gone); finally the task is appended unless its id was in
the dedup set. -/
def addTask (fileExists : String → Bool) (st : QueueState) (task : QTask) :
    QueueState :=
  let existingIds := (st.queue.filter (fun t => t.status = .queued)).map (·.id)
  match st.completed.find? (fun ct => ct.id == task.id) with
  | some ct =>
    if fileExists ct.outputPath then st
    else
      let st' := { st with completed := st.completed.erase ct }
      if task.id ∈ existingIds then st'
      else { st' with queue := st'.queue ++ [task] }
  | none =>
    if task.id ∈ existingIds then st
    else { st with queue := st.queue ++ [task] }

/-- `DownloadQueue._apply_rate_limit` (lines 266-272) in logical time:
with the stored `last_download_time` and the current clock, the worker
sleeps the remainder of the configured delay, so the transfer starts at
`last + delay` when the elapsed time is short, else at `now`; the stored
timestamp becomes the start time. -/
def applyRateLimit (delay last now : Nat) : Nat :=
  if now - last < delay then last + delay else now

/-- Successive serialized `_apply_rate_limit` calls: the list of
transfer-start times produced from the lock-arrival times. -/
def rateLimitStarts (delay : Nat) : Nat → List Nat → List Nat
  | _, [] => []
  | last, t :: ts =>
    applyRateLimit delay last t :: rateLimitStarts delay (applyRateLimit delay last t) ts

/-- Serialization hypothesis: the rate-limit lock hands the clock to
each caller no earlier than the previous caller's recorded start (the
clock is monotone and the lock serializes the critical sections). -/
def arrivalsSerialized (delay : Nat) : Nat → List Nat → Bool
  | _, [] => true
  | last, t :: ts =>
    decide (last ≤ t) && arrivalsSerialized delay (applyRateLimit delay last t) ts

/-- Adjacent elements spaced at least `delay` apart. -/
def spacedBy (delay : Nat) : List Nat → Bool
  | [] => true
  | [_] => true
  | a :: b :: rest => decide (a + delay ≤ b) && spacedBy delay (b :: rest)

/-- One iteration of the `_worker` loop head (lines 291-297): exit when
the stop event is set, idle-sleep when no task is queued, otherwise
process the task. -/
inductive WorkerAction
  | exit
  | idle
  | run (taskId : String)
  deriving DecidableEq, Repr

def workerStep (stopSet : Bool) (next : Option String) : WorkerAction :=
  if stopSet then .exit
  else
    match next with
    | none => .idle
    | some t => .run t

/-- The worker loop over a finite list of observations of
(`stop_event.is_set()`, `get_next_task()`): the trace of actions taken,
stopping at the first exit. -/
def workerTrace : List (Bool × Option String) → List WorkerAction
  | [] => []
  | (stop, next) :: rest =>
    if stop then [.exit]
    else workerStep stop next :: workerTrace rest

/-- A worker thread has terminated iff its trace reached `exit`. -/
def workerExited (tr : List WorkerAction) : Bool :=
  tr.contains .exit

/-- `wait_for_completion` (lines 836-839) joins every worker thread with
no timeout: it returns exactly when every worker has exited. -/
def waitForCompletionReturns (traces : List (List WorkerAction)) : Bool :=
  traces.all workerExited

/-! ### Concrete scenarios used as inputs -/

/-- A plain AAC single-URL stream descriptor. -/
def descA : StreamDesc := { codec := "AAC", fileExt := ".m4a", urls := ["u1"] }

/-- A FLAC-in-MP4 stream descriptor (the remux case). -/
def descFlacM4a : StreamDesc := { codec := "FLAC", fileExt := ".m4a", urls := ["u1"] }

/-- A run whose fetch loop observes the global stop signal mid-transfer. -/
def envCancel : TrackEnv :=
  { skipExisting := false, outputPathExists := false,
    oracle := fun _ => .ok descA, preferred := .hiResLossless,
    ffmpegAvailable := false, finalPathExists := false,
    fetch := .cancelled, remuxOk := true, moveFails := none, tagRaises := false }

/-- A FLAC-in-MP4 run with ffmpeg available and a successful remux. -/
def envRemux : TrackEnv :=
  { envCancel with oracle := fun _ => .ok descFlacM4a,
                   ffmpegAvailable := true, fetch := .ok }

/-- A FLAC-in-MP4 run whose remux invocation fails. -/
def envRemuxFail : TrackEnv := { envRemux with remuxOk := false }

/-- A run in which every quality tier raises a non-auth exception. -/
def envBoom : TrackEnv := { envCancel with oracle := fun _ => .exn "boom" }

/-- A plain successful run whose metadata embedding raises. -/
def envTagFail : TrackEnv := { envCancel with fetch := .ok, tagRaises := true }

/-- A task currently being downloaded by a worker. -/
def taskDownloading : QTask :=
  { id := "track_1", outputPath := "p", status := .downloading }

/-- A second task with the same id, re-enqueued while the first runs. -/
def taskRequeued : QTask :=
  { id := "track_1", outputPath := "p", status := .queued }

/-- Queue state after the first add and the worker pickup. -/
def stActive : QueueState :=
  { queue := [taskDownloading], completed := [], failed := [] }

/-- A completed record whose output file may or may not still exist. -/
def ctDone : QTask := { id := "track_9", outputPath := "f", status := .completed }

/-- A fresh task re-adding the completed id. -/
def taskRedo : QTask := { id := "track_9", outputPath := "p2", status := .queued }

/-- Queue state holding only the completed record. -/
def stDone : QueueState := { queue := [], completed := [ctDone], failed := [] }

/-! ### Helper lemmas -/

/-- The shape of a run of the quality-fallback loop over a ladder
segment: tiers are tried strictly in the listed descending order, the
run moves past a tier only when that tier fails, and it stops at the
first tier that yields a stream, requesting no tier below it. -/
inductive LadderRun (oracle : Quality → StreamAttempt) :
    List Quality → List Quality → Option StreamDesc → Prop
  | nil : LadderRun oracle [] [] none
  | success {q : Quality} {qs : List Quality} {d : StreamDesc} :
      oracle q = .ok d → LadderRun oracle (q :: qs) [q] (some d)
  | fail {q : Quality} {qs att : List Quality} {s : Option StreamDesc} :
      isOkAttempt (oracle q) = false → LadderRun oracle qs att s →
      LadderRun oracle (q :: qs) (q :: att) s

theorem resolveStreamAux_run (oracle : Quality → StreamAttempt)
    (ls : List Quality) : ∀ le : Option String,
    LadderRun oracle ls (resolveStreamAux oracle ls le).attempted
        (resolveStreamAux oracle ls le).stream ∧
    (resolveStreamAux oracle ls le).events =
      ((resolveStreamAux oracle ls le).attempted.map sessionEvBlock).flatten ∧
    (resolveStreamAux oracle ls le).attempted.head? = ls.head? := by
  induction ls with
  | nil => intro le; exact ⟨.nil, rfl, rfl⟩
  | cons q qs ih =>
    intro le
    cases hq : oracle q with
    | ok d =>
      refine ⟨?_, ?_, ?_⟩ <;> simp only [resolveStreamAux, hq]
      · exact .success hq
      · simp
      · rfl
    | noStream =>
      obtain ⟨hrun, hev, hhd⟩ := ih le
      refine ⟨?_, ?_, ?_⟩ <;> simp only [resolveStreamAux, hq]
      · exact .fail (by simp [isOkAttempt, hq]) hrun
      · simp [hev]
      · rfl
    | exn msg =>
      obtain ⟨hrun, hev, hhd⟩ := ih (some msg)
      refine ⟨?_, ?_, ?_⟩ <;> simp only [resolveStreamAux, hq]
      · exact .fail (by simp [isOkAttempt, hq]) hrun
      · simp [hev]
      · rfl

theorem ladder_head (preferred : Quality) :
    (qualityOrder.drop (startIndex preferred)).head? = some preferred := by
  cases preferred <;> rfl

theorem applyRateLimit_spaced (delay s t : Nat) (h : s ≤ t) :
    s + delay ≤ applyRateLimit delay s t := by
  unfold applyRateLimit
  split <;> omega

theorem worker_no_exit (l : List (Bool × Option String))
    (hl : ∀ o ∈ l, o.1 = false) : workerExited (workerTrace l) = false := by
  induction l with
  | nil => rfl
  | cons o rest ih =>
    obtain ⟨b, n⟩ := o
    have hb : b = false := hl (b, n) (List.mem_cons_self _ _)
    subst hb
    have hr := ih (fun o ho => hl o (List.mem_cons_of_mem _ ho))
    cases n <;>
      simp only [workerTrace, workerStep, workerExited, if_false,
        Bool.false_eq_true, List.contains_cons] at hr ⊢ <;>
      simp <;> simpa using hr

/-! ### Claim theorems -/

/-- C1: the claim says a task whose transfer is interrupted by the
global stop signal ends with status CANCELLED (never FAILED), and that
there is no transition out of a terminal state. In the code,
`_download_track` does set the task to CANCELLED and returns `False`,
but `_worker` then overwrites the status to FAILED and appends the task
to the failed collection — the CANCELLED state is not preserved. This
theorem evaluates the model at that failing input: the task leaves
`_download_track` as CANCELLED with the cancellation message, and the
worker post-processing turns it into FAILED on the failed list. -/
theorem c1_cancelled_task_marked_failed :
    (downloadTrack envCancel "song").status = DownloadStatus.cancelled ∧
    (downloadTrack envCancel "song").error = some "Download cancelled by user" ∧
    (workerFinish (downloadTrack envCancel "song")).finalStatus = DownloadStatus.failed ∧
    (workerFinish (downloadTrack envCancel "song")).toFailed = true := by
  decide

/-- C2 counterexample: the claim says a second `add_task` with the same
id while the first task is QUEUED or DOWNLOADING leaves exactly one
entry with that id. The dedup set in `add_task` (line 219) only collects
ids of QUEUED entries, so when the first task is DOWNLOADING the second
add appends a duplicate: the queue then holds two entries with id
"track_1", not one. -/
theorem c2_counterexample_downloading_duplicate :
    ((addTask (fun _ => false) stActive taskRequeued).queue.filter
        (fun t => t.id == "track_1")).length = 2 := by
  decide

/-- C2 amended: `add_task` called again while an entry with the same id
still has status QUEUED is a silent no-op on the queue (so exactly the
existing entries remain); the protection does not extend to a task that
has already moved to DOWNLOADING. -/
theorem c2_dedup_queued_only (fileExists : String → Bool) (st : QueueState)
    (task : QTask) (h : ∃ t ∈ st.queue, t.id = task.id ∧ t.status = .queued) :
    (addTask fileExists st task).queue = st.queue := by
  obtain ⟨t, ht, hid, hst⟩ := h
  have hmem : task.id ∈ (st.queue.filter (fun t => t.status = .queued)).map (·.id) := by
    refine List.mem_map.mpr ⟨t, List.mem_filter.mpr ⟨ht, ?_⟩, hid⟩
    simp [hst]
  unfold addTask
  cases hf : st.completed.find? (fun ct => ct.id == task.id) with
  | none => simp [hmem]
  | some ct =>
    by_cases hfe : fileExists ct.outputPath
    · simp [hfe]
    · simp [hfe, hmem]

theorem c2_dedup_queued_only_witness :
    (addTask (fun _ => false)
        { queue := [taskRequeued], completed := [], failed := [] }
        taskRequeued).queue = [taskRequeued] :=
  c2_dedup_queued_only _ _ _ ⟨taskRequeued, by simp, rfl, rfl⟩

/-- C4: for a task whose id is recorded in the completed set (as found
by the scan in `add_task`), re-adding the id is a full no-op when the
recorded output file still exists; when the file is gone, the stale
completed record is evicted and the new task is appended to the queue
(as the fresh QUEUED entry it was constructed as). -/
theorem c4_completed_readd (fileExists : String → Bool) (st : QueueState)
    (task ct : QTask)
    (hfind : st.completed.find? (fun c => c.id == task.id) = some ct) :
    (fileExists ct.outputPath = true → addTask fileExists st task = st) ∧
    (fileExists ct.outputPath = false →
      (∀ t ∈ st.queue, t.status = .queued → t.id ≠ task.id) →
      (addTask fileExists st task).queue = st.queue ++ [task] ∧
      (addTask fileExists st task).completed = st.completed.erase ct ∧
      (addTask fileExists st task).failed = st.failed) := by
  constructor
  · intro hex
    simp [addTask, hfind, hex]
  · intro hex hnq
    have hmem : task.id ∉ (st.queue.filter (fun t => t.status = .queued)).map (·.id) := by
      intro hcontra
      obtain ⟨t, htf, hidt⟩ := List.mem_map.mp hcontra
      obtain ⟨ht, hqdec⟩ := List.mem_filter.mp htf
      exact hnq t ht (of_decide_eq_true hqdec) hidt
    simp [addTask, hfind, hex, hmem]

theorem c4_completed_readd_witness :
    addTask (fun _ => true) stDone taskRedo = stDone ∧
    (addTask (fun _ => false) stDone taskRedo).queue = [taskRedo] :=
  ⟨(c4_completed_readd (fun _ => true) stDone taskRedo ctDone (by decide)).1 rfl,
   ((c4_completed_readd (fun _ => false) stDone taskRedo ctDone (by decide)).2
      rfl (by decide)).1⟩

/-- C5: stream negotiation tries tiers along the fixed descending
ladder starting exactly at the configured preferred tier, moves past a
tier only when it fails, stops at the first tier that yields a stream
and requests no tier below it (the `LadderRun` shape of the attempted
list); and every attempted tier's session-quality mutation and
stream-fetch call form one block bracketed by the acquisition and
release of the dedicated session lock. -/
theorem c5_quality_ladder (oracle : Quality → StreamAttempt) (preferred : Quality) :
    LadderRun oracle (qualityOrder.drop (startIndex preferred))
      (resolveStream oracle preferred).attempted
      (resolveStream oracle preferred).stream ∧
    (resolveStream oracle preferred).attempted.head? = some preferred ∧
    (resolveStream oracle preferred).events =
      ((resolveStream oracle preferred).attempted.map sessionEvBlock).flatten := by
  obtain ⟨hrun, hev, hhd⟩ :=
    resolveStreamAux_run oracle (qualityOrder.drop (startIndex preferred)) none
  exact ⟨hrun, hhd.trans (ladder_head preferred), hev⟩

/-- C6 counterexample: the claim says a negotiation failure surfaces
exactly one of three kinds, with the all-qualities-failed error whenever
every tier of the ladder has been exhausted. Here every tier raises a
non-auth exception "boom", so the ladder is exhausted, yet the task
error is the fourth message "Stream error: boom" — none of the three
claimed kinds. -/
theorem c6_counterexample_generic_stream_error :
    (downloadTrack envBoom "song").success = false ∧
    (resolveStream envBoom.oracle envBoom.preferred).stream = none ∧
    (downloadTrack envBoom "song").error = some "Stream error: boom" ∧
    (downloadTrack envBoom "song").error ≠ some "Session expired or invalid rights." ∧
    (downloadTrack envBoom "song").error ≠ some "Could not get stream URL (all qualities failed)" ∧
    (downloadTrack envBoom "song").error ≠ some "No download URLs available" := by
  decide

/-- C6 amended: negotiation failure surfaces one of four kinds: the
auth-expired message when the last recorded exception contains 401/403;
a generic "Stream error: e" when the ladder was exhausted and the last
tier raised a non-auth exception; the all-qualities-failed message only
when the ladder was exhausted with no exception recorded (every tier
returned no stream); and the no-stream-urls message when the negotiated
manifest has zero URLs. Each makes the task fail. -/
theorem c6_failure_taxonomy (env : TrackEnv) (p : String)
    (hs : (env.skipExisting && env.outputPathExists) = false) :
    ((resolveStream env.oracle env.preferred).stream = none →
      (resolveStream env.oracle env.preferred).lastErr = none →
      (downloadTrack env p).success = false ∧
      (downloadTrack env p).error = some "Could not get stream URL (all qualities failed)") ∧
    (∀ e, (resolveStream env.oracle env.preferred).stream = none →
      (resolveStream env.oracle env.preferred).lastErr = some e →
      hasAuthCode e = true →
      (downloadTrack env p).success = false ∧
      (downloadTrack env p).error = some "Session expired or invalid rights.") ∧
    (∀ e, (resolveStream env.oracle env.preferred).stream = none →
      (resolveStream env.oracle env.preferred).lastErr = some e →
      hasAuthCode e = false →
      (downloadTrack env p).success = false ∧
      (downloadTrack env p).error = some ("Stream error: " ++ e)) ∧
    (∀ d, (resolveStream env.oracle env.preferred).stream = some d →
      (env.skipExisting && env.finalPathExists) = false →
      d.urls = [] →
      (downloadTrack env p).success = false ∧
      (downloadTrack env p).error = some "No download URLs available") := by
  refine ⟨?_, ?_, ?_, ?_⟩
  · intro hn hle
    simp [downloadTrack, hs, hn, hle, streamFailureError]
  · intro e hn hle ha
    simp [downloadTrack, hs, hn, hle, streamFailureError, ha]
  · intro e hn hle ha
    simp [downloadTrack, hs, hn, hle, streamFailureError, ha]
  · intro d hd hs2 hu
    simp [downloadTrack, hs, hd, hs2, hu, List.isEmpty]

theorem c6_failure_taxonomy_witness :
    (downloadTrack envBoom "song").success = false ∧
    (downloadTrack envBoom "song").error = some ("Stream error: " ++ "boom") :=
  (c6_failure_taxonomy envBoom "song" rfl).2.2.1 "boom" (by decide) (by decide) (by decide)

/-- C7: when the negotiated stream is FLAC in an MP4 container, ffmpeg
is available, the fetch completes and the remux invocation fails, the
task is not failed for that reason: the downloaded file is kept, renamed
to the sibling path with the `.m4a` extension (the source's
replace/rsplit computation on the temp name), and the pipeline proceeds
to completion with the worker marking the task COMPLETED. -/
theorem c7_remux_failure_fallback (env : TrackEnv) (p : String) (d : StreamDesc)
    (h1 : (env.skipExisting && env.outputPathExists) = false)
    (h2 : (env.skipExisting && env.finalPathExists) = false)
    (hd : (resolveStream env.oracle env.preferred).stream = some d)
    (hc : d.codec = "FLAC") (he : d.fileExt = ".m4a")
    (hf : env.ffmpegAvailable = true)
    (hu : d.urls ≠ [])
    (hfo : env.fetch = .ok)
    (hr : env.remuxOk = false)
    (hm : env.moveFails = none) :
    (downloadTrack env p).success = true ∧
    (workerFinish (downloadTrack env p)).finalStatus = DownloadStatus.completed ∧
    (downloadTrack env p).outputPath =
      m4aFallbackPath (tempPath (safeAddExtension p ".flac")) ∧
    FsEvent.renameFile (tempPath (safeAddExtension p ".flac"))
        ((downloadTrack env p).outputPath) ∈ (downloadTrack env p).events := by
  have hrfp : resolveFinalPath p d env.ffmpegAvailable = (safeAddExtension p ".flac", true) := by
    simp [resolveFinalPath, hc, he, hf]
  have hres : downloadTrack env p =
      { success := true, status := .downloading, error := none,
        outputPath := m4aFallbackPath (tempPath (safeAddExtension p ".flac")),
        resolvedFinal := some (safeAddExtension p ".flac"),
        events := [.mkdirParent p, .writeTemp (tempPath (safeAddExtension p ".flac")),
                   .remuxWrite (tempPath (safeAddExtension p ".flac")) (safeAddExtension p ".flac"),
                   .renameFile (tempPath (safeAddExtension p ".flac"))
                     (m4aFallbackPath (tempPath (safeAddExtension p ".flac"))),
                   .tagFile (m4aFallbackPath (tempPath (safeAddExtension p ".flac"))) env.tagRaises] } := by
    simp [downloadTrack, h1, h2, hd, hrfp, hfo, hr, hm,
      List.isEmpty_eq_true, hu, workerFinish]
  rw [hres]
  refine ⟨rfl, rfl, rfl, ?_⟩
  simp [workerFinish]

theorem c7_remux_failure_fallback_witness :
    (downloadTrack envRemuxFail "song").success = true ∧
    (workerFinish (downloadTrack envRemuxFail "song")).finalStatus = DownloadStatus.completed ∧
    (downloadTrack envRemuxFail "song").outputPath = "song.m4a" := by
  have h := c7_remux_failure_fallback envRemuxFail "song" descFlacM4a
    rfl rfl (by decide) rfl rfl rfl (by decide) rfl rfl rfl
  exact ⟨h.1, h.2.1, h.2.2.1.trans (by decide)⟩

/-- C8: for every run whose bytes were fetched and finalized
successfully (fetch ok, no rename failure), the metadata-embedding
attempt is made on the final file with whatever exception flag the
environment carries, and regardless of that flag the run succeeds and
the worker marks the task COMPLETED — a tagging failure never flips a
completed download to failed. -/
theorem c8_tagging_best_effort (env : TrackEnv) (p : String) (d : StreamDesc)
    (h1 : (env.skipExisting && env.outputPathExists) = false)
    (h2 : (env.skipExisting && env.finalPathExists) = false)
    (hd : (resolveStream env.oracle env.preferred).stream = some d)
    (hu : d.urls ≠ [])
    (hfo : env.fetch = .ok)
    (hm : env.moveFails = none) :
    (downloadTrack env p).success = true ∧
    (workerFinish (downloadTrack env p)).finalStatus = DownloadStatus.completed ∧
    (workerFinish (downloadTrack env p)).toCompleted = true ∧
    FsEvent.tagFile ((downloadTrack env p).outputPath) env.tagRaises ∈
      (downloadTrack env p).events := by
  cases hrem : (resolveFinalPath p d env.ffmpegAvailable).2 with
  | false =>
    refine ⟨?_, ?_, ?_, ?_⟩ <;>
      simp [downloadTrack, h1, h2, hd, hrem, hfo, hm, hu,
        List.isEmpty_eq_true, workerFinish]
  | true =>
    cases hro : env.remuxOk with
    | true =>
      refine ⟨?_, ?_, ?_, ?_⟩ <;>
        simp [downloadTrack, h1, h2, hd, hrem, hfo, hm, hro, hu,
          List.isEmpty_eq_true, workerFinish]
    | false =>
      refine ⟨?_, ?_, ?_, ?_⟩ <;>
        simp [downloadTrack, h1, h2, hd, hrem, hfo, hm, hro, hu,
          List.isEmpty_eq_true, workerFinish]

theorem c8_tagging_best_effort_witness :
    (downloadTrack envTagFail "song").success = true ∧
    (workerFinish (downloadTrack envTagFail "song")).finalStatus = DownloadStatus.completed ∧
    FsEvent.tagFile ((downloadTrack envTagFail "song").outputPath) true ∈
      (downloadTrack envTagFail "song").events := by
  have h := c8_tagging_best_effort envTagFail "song" descA
    rfl rfl (by decide) (by decide) rfl rfl
  exact ⟨h.1, h.2.1, h.2.2.2⟩

/-- C9: each serialized pass through `_apply_rate_limit` (under the
dedicated rate-limit lock) computes the elapsed time since the shared
last-dispatch timestamp, sleeps the remainder of the configured minimum
interval when needed and records the new start time; consequently the
transfer-start times produced by any serialized sequence of worker
arrivals are pairwise spaced at least the configured delay apart,
regardless of how many workers produced them. -/
theorem c9_rate_limit_spacing (delay last : Nat) (ts : List Nat)
    (h : arrivalsSerialized delay last ts = true) :
    spacedBy delay (rateLimitStarts delay last ts) = true := by
  induction ts generalizing last with
  | nil => rfl
  | cons t ts ih =>
    simp only [arrivalsSerialized, Bool.and_eq_true, decide_eq_true_eq] at h
    obtain ⟨hlt, h2⟩ := h
    cases ts with
    | nil => simp [rateLimitStarts, spacedBy]
    | cons t2 ts2 =>
      have h2' := h2
      simp only [arrivalsSerialized, Bool.and_eq_true, decide_eq_true_eq] at h2'
      have hs := ih (applyRateLimit delay last t) h2
      simp only [rateLimitStarts, spacedBy, Bool.and_eq_true, decide_eq_true_eq] at hs ⊢
      exact ⟨applyRateLimit_spaced delay (applyRateLimit delay last t) t2 h2'.1, hs⟩

theorem c9_rate_limit_spacing_witness :
    spacedBy 2 (rateLimitStarts 2 0 [0, 3, 4]) = true :=
  c9_rate_limit_spacing 2 0 [0, 3, 4] (by decide)

/-- C10: a worker that observes the stop signal unset never exits, even
when the queue is empty: an empty poll yields an idle sleep followed by
re-polling, and the trace of any observation sequence with the stop
signal always unset contains no exit; consequently `wait_for_completion`,
which joins the workers without a timeout, does not return while any
worker's observations never include a set stop signal — it returns only
after `stop_workers` sets the signal, not when all tasks have
terminated. -/
theorem c10_worker_idle_loop (obs : List (Bool × Option String))
    (h : ∀ o ∈ obs, o.1 = false) :
    workerExited (workerTrace obs) = false ∧
    (∀ rest next, workerTrace ((false, next) :: rest) =
        workerStep false next :: workerTrace rest) ∧
    workerStep false none = .idle ∧
    (∀ traces, workerTrace obs ∈ traces →
        waitForCompletionReturns traces = false) := by
  have hmain := worker_no_exit obs h
  refine ⟨hmain, fun rest next => rfl, rfl, fun traces htr => ?_⟩
  cases hwc : waitForCompletionReturns traces with
  | false => rfl
  | true =>
    have := List.all_eq_true.mp hwc _ htr
    rw [hmain] at this
    exact absurd this (by simp)

theorem c10_worker_idle_loop_witness :
    workerExited (workerTrace [(false, none), (false, some "t"), (false, none)]) = false ∧
    waitForCompletionReturns
        [workerTrace [(false, none), (false, some "t"), (false, none)]] = false := by
  have h := c10_worker_idle_loop [(false, none), (false, some "t"), (false, none)] (by decide)
  exact ⟨h.1, h.2.2.2 _ (by simp)⟩

/-- C3 counterexample: the claim says every download's temp file is, on
success, renamed (never copied) into the final place. In the remux
branch this fails: the run succeeds, yet no rename of the temp file
into the final path happens — instead the external tool writes the
final path directly (so the final name transiently holds an incomplete
file while ffmpeg writes it) and the temp file is deleted. -/
theorem c3_counterexample_remux_no_rename :
    (downloadTrack envRemux "song").success = true ∧
    (downloadTrack envRemux "song").resolvedFinal = some "song.flac" ∧
    ((downloadTrack envRemux "song").events.contains
        (FsEvent.renameFile "song.flac.downloading" "song.flac")) = false ∧
    ((downloadTrack envRemux "song").events.contains
        (FsEvent.remuxWrite "song.flac.downloading" "song.flac")) = true ∧
    ((downloadTrack envRemux "song").events.contains
        (FsEvent.deleteFile "song.flac.downloading")) = true := by
  decide

/-- C3 amended: every download writes bytes only to the single
temporary sibling path formed by appending the fixed marker suffix to
the resolved final path. On success the file reaches its final name
either by renaming the temp into the task's final path (the non-remux
branch, and the remux-failure fallback renaming it to the .m4a
sibling), or — in the remux branch — by the external tool writing the
final path directly with the temp deleted afterwards. On cancellation
or an I/O error during the fetch the written temp file is deleted
(cancellation also marks the task CANCELLED inside the run); a failure
of the final rename itself, however, fails the task and leaves the temp
file in place. -/
theorem c3_temp_file_discipline (env : TrackEnv) (p : String) :
    (∀ q, FsEvent.writeTemp q ∈ (downloadTrack env p).events →
      ∃ fp, (downloadTrack env p).resolvedFinal = some fp ∧ q = tempPath fp) ∧
    ((downloadTrack env p).success = true → (downloadTrack env p).status ≠ .skipped →
      ∃ fp, (downloadTrack env p).resolvedFinal = some fp ∧
        (FsEvent.renameFile (tempPath fp) ((downloadTrack env p).outputPath) ∈
            (downloadTrack env p).events ∨
         (FsEvent.remuxWrite (tempPath fp) fp ∈ (downloadTrack env p).events ∧
          FsEvent.deleteFile (tempPath fp) ∈ (downloadTrack env p).events))) ∧
    ((downloadTrack env p).success = false → env.moveFails = none →
      ∀ fp, (downloadTrack env p).resolvedFinal = some fp →
        FsEvent.writeTemp (tempPath fp) ∈ (downloadTrack env p).events →
        FsEvent.deleteFile (tempPath fp) ∈ (downloadTrack env p).events) ∧
    (env.fetch = .cancelled →
      (env.skipExisting && env.outputPathExists) = false →
      (env.skipExisting && env.finalPathExists) = false →
      ∀ d, (resolveStream env.oracle env.preferred).stream = some d → d.urls ≠ [] →
        (downloadTrack env p).status = .cancelled ∧
        (downloadTrack env p).success = false ∧
        FsEvent.deleteFile (tempPath (resolveFinalPath p d env.ffmpegAvailable).1) ∈
          (downloadTrack env p).events) ∧
    (∀ msg d, env.fetch = .ok → env.moveFails = some msg →
      (env.skipExisting && env.outputPathExists) = false →
      (env.skipExisting && env.finalPathExists) = false →
      (resolveStream env.oracle env.preferred).stream = some d → d.urls ≠ [] →
      (resolveFinalPath p d env.ffmpegAvailable).2 = false →
      (downloadTrack env p).success = false ∧
      (∀ x, FsEvent.deleteFile x ∉ (downloadTrack env p).events)) := by
  cases h1 : env.skipExisting && env.outputPathExists with
  | true =>
    refine ⟨?_, ?_, ?_, ?_, ?_⟩ <;> simp [downloadTrack, h1]
  | false =>
    cases hstream : (resolveStream env.oracle env.preferred).stream with
    | none =>
      refine ⟨?_, ?_, ?_, ?_, ?_⟩ <;> simp [downloadTrack, h1, hstream]
    | some d =>
      cases h2 : env.skipExisting && env.finalPathExists with
      | true =>
        refine ⟨?_, ?_, ?_, ?_, ?_⟩ <;> simp [downloadTrack, h1, hstream, h2]
      | false =>
        cases hurls : d.urls.isEmpty with
        | true =>
          have hun : d.urls = [] := by simpa [List.isEmpty_iff] using hurls
          refine ⟨?_, ?_, ?_, ?_, ?_⟩ <;>
            simp [downloadTrack, h1, hstream, h2, hurls, hun]
        | false =>
          cases hfetch : env.fetch with
          | cancelled =>
            refine ⟨?_, ?_, ?_, ?_, ?_⟩ <;>
              simp [downloadTrack, h1, hstream, h2, hurls, hfetch]
          | ioError wrote msg =>
            cases wrote <;>
              (refine ⟨?_, ?_, ?_, ?_, ?_⟩ <;>
                simp [downloadTrack, h1, hstream, h2, hurls, hfetch])
          | ok =>
            cases hrem : (resolveFinalPath p d env.ffmpegAvailable).2 with
            | true =>
              cases hro : env.remuxOk with
              | true =>
                refine ⟨?_, ?_, ?_, ?_, ?_⟩ <;>
                  simp [downloadTrack, h1, hstream, h2, hurls, hfetch, hrem, hro]
              | false =>
                cases hmv : env.moveFails with
                | none =>
                  refine ⟨?_, ?_, ?_, ?_, ?_⟩ <;>
                    simp [downloadTrack, h1, hstream, h2, hurls, hfetch, hrem, hro, hmv]
                | some msg =>
                  refine ⟨?_, ?_, ?_, ?_, ?_⟩ <;>
                    simp [downloadTrack, h1, hstream, h2, hurls, hfetch, hrem, hro, hmv]
            | false =>
              cases hmv : env.moveFails with
              | none =>
                refine ⟨?_, ?_, ?_, ?_, ?_⟩ <;>
                  simp [downloadTrack, h1, hstream, h2, hurls, hfetch, hrem, hmv]
              | some msg =>
                refine ⟨?_, ?_, ?_, ?_, ?_⟩ <;>
                  simp [downloadTrack, h1, hstream, h2, hurls, hfetch, hrem, hmv]

theorem c3_temp_file_discipline_witness :
    (downloadTrack envCancel "song").status = DownloadStatus.cancelled ∧
    (downloadTrack envCancel "song").success = false ∧
    FsEvent.deleteFile (tempPath (resolveFinalPath "song" descA envCancel.ffmpegAvailable).1) ∈
      (downloadTrack envCancel "song").events :=
  (c3_temp_file_discipline envCancel "song").2.2.2.1 rfl rfl rfl descA
    (by decide) (by decide)

end TidalMdl
